import Mathlib

/-!
Formal model of the YNAB conversion tool (src/YNAB.py).

The program is a pandas/streamlit script.  We embed it shallowly:

* Cell values are modelled by `Value`: an exact rational (Python float),
  the float NaN (pandas missing value), or a string.  Amounts are modelled
  as exact rationals; Python `round(x, 2)` is modelled by round-half-even
  to two decimal digits (`round2`), Python's documented tie rule.
* pandas `DataFrame`s are column-oriented: a `RawTable` is a list of named
  columns, a `YnabTable` holds the five output columns.  All tables that
  the script builds carry a default integer range index, so index
  alignment is positional.
* Assigning to a column of a frame follows pandas setitem semantics:
  a scalar broadcasts over the current index; a series assigned to a
  frame with a nonempty index is aligned (reindexed) to that index; a
  nonempty series assigned to a frame whose index is empty makes the
  frame adopt the series' index, reindexing the previously created
  (empty) columns with NaN fill.
* Exceptions (Python `TypeError` from comparing `str` with `int`) are
  modelled with `Except`; `st.error` / `st.warning` calls are modelled as
  a list of `Diag` values accumulated beside the result.
-/

set_option maxRecDepth 100000

deriving instance DecidableEq for Except

namespace YNAB

/-- Empty string, used by `apply_mappings` for unmapped or missing columns. -/
def emptyStr : String := ""

/-- Message of the Python `TypeError` raised when a string cell is compared
with `0` in the Inflow/Outflow lambdas. -/
def typeErrorMsg : String := "TypeError: comparison of str and int"

/-- A pandas cell value: a numeric value (Python float, modelled as an exact
rational), the float NaN used by pandas for missing data, or a string. -/
inductive Value where
  | num (q : ℚ)
  | nan
  | str (s : String)
  deriving DecidableEq

/-- A diagnostic shown through `st.warning` / `st.error`: one constructor per
call site in the source. -/
inductive Diag where
  | missingColumn (col : String)
  | parseError (fileName : String)
  | unsupportedFileType
  deriving DecidableEq

/-! ## Python rounding

`round(x, 2)` in Python rounds half to even.  `rhe x` is the integer nearest
to `x`, ties to the even integer. -/

/-- Round half to even to the nearest integer. -/
def rhe (x : ℚ) : ℤ :=
  if x - ⌊x⌋ < 1/2 then ⌊x⌋
  else if 1/2 < x - ⌊x⌋ then ⌊x⌋ + 1
  else if ⌊x⌋ % 2 = 0 then ⌊x⌋ else ⌊x⌋ + 1

/-- Python `round(q, 2)`: round half to even at the second decimal digit. -/
def round2 (q : ℚ) : ℚ := (rhe (q * 100) : ℚ) / 100

theorem rhe_ge_floor (x : ℚ) : ⌊x⌋ ≤ rhe x := by
  unfold rhe; split_ifs <;> omega

theorem rhe_le_floor_add_one (x : ℚ) : rhe x ≤ ⌊x⌋ + 1 := by
  unfold rhe; split_ifs <;> omega

theorem rhe_nonneg {x : ℚ} (h : 0 ≤ x) : 0 ≤ rhe x :=
  le_trans (Int.floor_nonneg.mpr h) (rhe_ge_floor x)

theorem round2_nonneg {q : ℚ} (h : 0 ≤ q) : 0 ≤ round2 q := by
  unfold round2
  have h100 : (0:ℚ) ≤ q * 100 := by nlinarith
  have := rhe_nonneg h100
  positivity

theorem rhe_intCast (n : ℤ) : rhe (n : ℚ) = n := by
  unfold rhe
  rw [Int.floor_intCast]
  simp

theorem rhe_mono {x y : ℚ} (h : x ≤ y) : rhe x ≤ rhe y := by
  by_cases heq : ⌊x⌋ = ⌊y⌋
  · have hf : x - (⌊x⌋ : ℚ) ≤ y - (⌊y⌋ : ℚ) := by rw [heq]; linarith
    unfold rhe
    rw [heq] at hf ⊢
    split_ifs <;> first | omega | linarith
  · have hlt : ⌊x⌋ < ⌊y⌋ := lt_of_le_of_ne (Int.floor_le_floor h) heq
    calc rhe x ≤ ⌊x⌋ + 1 := rhe_le_floor_add_one x
    _ ≤ ⌊y⌋ := by omega
    _ ≤ rhe y := rhe_ge_floor y

theorem round2_mono {x y : ℚ} (h : x ≤ y) : round2 x ≤ round2 y := by
  unfold round2
  have : rhe (x * 100) ≤ rhe (y * 100) := rhe_mono (by nlinarith)
  have hc : ((rhe (x * 100) : ℚ)) ≤ ((rhe (y * 100) : ℚ)) := by exact_mod_cast this
  linarith

/-- An amount that is an exact multiple of 0.01 is a fixed point of `round2`. -/
theorem round2_hundredth (n : ℤ) : round2 ((n : ℚ) / 100) = (n : ℚ) / 100 := by
  unfold round2
  rw [div_mul_cancel₀ _ (by norm_num : (100:ℚ) ≠ 0), rhe_intCast]

/-- Positive amounts below half a cent round to 0 at two decimals. -/
theorem round2_small {q : ℚ} (h0 : 0 < q) (h : q < 1/200) : round2 q = 0 := by
  unfold round2
  have hfl : ⌊q * 100⌋ = 0 := by
    rw [Int.floor_eq_zero_iff]
    constructor <;> [nlinarith; nlinarith]
  unfold rhe
  rw [hfl]
  have hlt : q * 100 - ((0:ℤ) : ℚ) < 1/2 := by push_cast; nlinarith
  rw [if_pos hlt]
  norm_num

/-! ## The Mapper/Normalizer: `apply_mappings` (src/YNAB.py lines 41-60) -/

/-- A parsed input table: named columns of cells, carrying a default range
index `0, 1, ...` (which is what `pd.read_csv` / `pd.read_excel` produce). -/
structure RawTable where
  cols : List (String × List Value)
  deriving DecidableEq

/-- `source_col in df.columns` / `df[source_col]`: the first column with the
given name, if any. -/
def RawTable.getCol (df : RawTable) (c : String) : Option (List Value) :=
  (df.cols.find? (fun p => p.fst == c)).map Prod.snd

/-- One entry of `COLUMN_MAPPINGS`: the Python dict
`{Date: ..., Payee: ..., Memo: ..., Amount: ...}` in insertion order;
`none` is the `None` ("unmapped") sentinel. -/
structure ColumnMapping where
  date : Option String
  payee : Option String
  memo : Option String
  amount : Option String
  deriving DecidableEq

/-- Reindexing a series with range index to a range index of length `k`:
keep the first `k` positions, fill missing positions with NaN. -/
def alignSeries (k : Nat) (v : List Value) : List Value :=
  v.take k ++ List.replicate (k - v.length) Value.nan

/-- Length of the frame's index after one column assignment of the
`apply_mappings` loop, starting from index length `k`.  A nonempty series
assigned while the index is empty makes the frame adopt the series' index
(pandas `_ensure_valid_index`); otherwise the index is unchanged. -/
def stepK (df : RawTable) (k : Nat) (src : Option String) : Nat :=
  match src with
  | none => k
  | some c =>
    match df.getCol c with
    | none => k
    | some v => if k = 0 ∧ v ≠ [] then v.length else k

/-- The value assigned by one iteration of the `apply_mappings` loop when the
frame's index has length `k`: the source column if mapped and present
(aligned to the index unless the frame adopts the series' index), otherwise
the scalar `""` broadcast over the index. -/
def rawAssign (df : RawTable) (k : Nat) (src : Option String) : List Value :=
  match src with
  | none => List.replicate k (Value.str emptyStr)
  | some c =>
    match df.getCol c with
    | none => List.replicate k (Value.str emptyStr)
    | some v => if k = 0 ∧ v ≠ [] then v else alignSeries k v

/-- The `st.warning` diagnostic of one loop iteration: emitted exactly when a
mapped source column is absent from the input table. -/
def missingColDiag (df : RawTable) (src : Option String) : List Diag :=
  match src with
  | none => []
  | some c =>
    match df.getCol c with
    | none => [Diag.missingColumn c]
    | some _ => []

/-- Index length after the `Date` assignment (the loop runs in dict insertion
order: Date, Payee, Memo, Amount). -/
def kAfterDate (df : RawTable) (m : ColumnMapping) : Nat := stepK df 0 m.date

/-- Index length after the `Payee` assignment. -/
def kAfterPayee (df : RawTable) (m : ColumnMapping) : Nat :=
  stepK df (kAfterDate df m) m.payee

/-- Index length after the `Memo` assignment. -/
def kAfterMemo (df : RawTable) (m : ColumnMapping) : Nat :=
  stepK df (kAfterPayee df m) m.memo

/-- Index length after the `Amount` assignment: the number of rows of the
finished frame. -/
def kFinal (df : RawTable) (m : ColumnMapping) : Nat :=
  stepK df (kAfterMemo df m) m.amount

/-- The finished `Date` column: the value assigned while the index had its
then-current length, reindexed to the final index (a later index adoption
reindexes the previously created empty columns with NaN fill; for columns
assigned after the index is fixed this reindexing is the identity). -/
def dateColumn (df : RawTable) (m : ColumnMapping) : List Value :=
  alignSeries (kFinal df m) (rawAssign df 0 m.date)

/-- The finished `Payee` column. -/
def payeeColumn (df : RawTable) (m : ColumnMapping) : List Value :=
  alignSeries (kFinal df m) (rawAssign df (kAfterDate df m) m.payee)

/-- The finished `Memo` column. -/
def memoColumn (df : RawTable) (m : ColumnMapping) : List Value :=
  alignSeries (kFinal df m) (rawAssign df (kAfterPayee df m) m.memo)

/-- The finished `Amount` column (dropped from the result after the split). -/
def amountColumn (df : RawTable) (m : ColumnMapping) : List Value :=
  alignSeries (kFinal df m) (rawAssign df (kAfterMemo df m) m.amount)

/-- `lambda x: round(x, 2) if x > 0 else 0` (line 57).  `NaN > 0` is false in
Python, so NaN yields `0`; comparing a string with `0` raises `TypeError`. -/
def inflowCell : Value → Except String Value
  | .num q => .ok (.num (if 0 < q then round2 q else 0))
  | .nan => .ok (.num 0)
  | .str _ => .error typeErrorMsg

/-- `lambda x: round(-x, 2) if x < 0 else 0` (line 58). -/
def outflowCell : Value → Except String Value
  | .num q => .ok (.num (if q < 0 then round2 (-q) else 0))
  | .nan => .ok (.num 0)
  | .str _ => .error typeErrorMsg

/-- `Series.apply(f)`: apply `f` cell by cell; the first raised exception
propagates out. -/
def mapCells (f : Value → Except String Value) :
    List Value → Except String (List Value)
  | [] => .ok []
  | v :: vs => do
    let w ← f v
    let ws ← mapCells f vs
    .ok (w :: ws)

/-- The five normalized output columns (the YNAB format). -/
structure YnabTable where
  date : List Value
  payee : List Value
  memo : List Value
  inflow : List Value
  outflow : List Value
  deriving DecidableEq

/-- `apply_mappings(df, mappings)` (lines 41-60): build the four mapped
columns in dict order, then split `Amount` into `Inflow`/`Outflow` and drop
it.  Returns the emitted warnings (which are shown before the split runs)
together with either the finished table or the uncaught Python exception. -/
def apply_mappings (df : RawTable) (m : ColumnMapping) :
    List Diag × Except String YnabTable :=
  (missingColDiag df m.date ++ missingColDiag df m.payee ++
     missingColDiag df m.memo ++ missingColDiag df m.amount,
   do
     let infl ← mapCells inflowCell (amountColumn df m)
     let outf ← mapCells outflowCell (amountColumn df m)
     pure { date := dateColumn df m, payee := payeeColumn df m,
            memo := memoColumn df m, inflow := infl, outflow := outf })

/-! ## Format registry and file parser (src/YNAB.py lines 10-39) -/

/-- Format name of the first registry entry. -/
def sweFormat : String := "Swedbank (csv)"

/-- Format name of the second registry entry. -/
def coopFormat : String := "Coop Mastercard (xls & xlsx)"

/-- Source column names of the two registry entries. -/
def sweDateCol : String := "Transaktionsdag"

def swePayeeCol : String := "Beskrivning"

def sweAmountCol : String := "Belopp"

def coopDateCol : String := "Datum"

def coopPayeeCol : String := "Detaljer"

def coopAmountCol : String := "Fakturabelopp"

/-- The hardcoded `COLUMN_MAPPINGS` dict (lines 10-23), as a lookup:
`none` for a format name that is not a key (Python would raise `KeyError`). -/
def COLUMN_MAPPINGS (ft : String) : Option ColumnMapping :=
  if ft = sweFormat then
    some { date := some sweDateCol, payee := some swePayeeCol,
           memo := none, amount := some sweAmountCol }
  else if ft = coopFormat then
    some { date := some coopDateCol, payee := some coopPayeeCol,
           memo := none, amount := some coopAmountCol }
  else none

/-- An uploaded file, modelled by what the two pandas readers would yield on
its bytes: `none` means the reader raises (bad encoding, corrupt structure,
I/O failure), `some` is the parsed table with its default range index. -/
structure UploadedFile where
  name : String
  readCsv : Option RawTable
  readExcel : Option RawTable
  deriving DecidableEq

/-- `parse_transaction_file(file, file_type)` (lines 25-39): dispatch on the
format name; unknown formats and reader exceptions both yield `None`
(with different `st.error` diagnostics, see `parseFailDiag`). -/
def parse_transaction_file (f : UploadedFile) (ft : String) : Option RawTable :=
  if ft = sweFormat then f.readCsv
  else if ft = coopFormat then f.readExcel
  else none

/-- The `st.error` diagnostic emitted when `parse_transaction_file` returns
`None`: for a registered format the reader raised (line 38), otherwise the
format is unsupported (line 34). -/
def parseFailDiag (f : UploadedFile) (ft : String) : Diag :=
  if ft = sweFormat ∨ ft = coopFormat then Diag.parseError f.name
  else Diag.unsupportedFileType

/-- Message of the Python `KeyError` on `COLUMN_MAPPINGS[file_type]`
(unreachable: the lookup only runs after a successful parse, which requires
a registered format). -/
def keyErrorMsg : String := "KeyError"

/-- The module-level batch loop (lines 117-123): each file is parsed; a
failed parse is reported and skipped; a parsed file is normalized and its
table appended.  An uncaught exception from `apply_mappings` aborts the
script (diagnostics already shown stay visible). -/
def processFiles (ft : String) :
    List UploadedFile → List Diag × Except String (List YnabTable)
  | [] => ([], .ok [])
  | f :: rest =>
    match parse_transaction_file f ft with
    | none =>
      let dr := processFiles ft rest
      (parseFailDiag f ft :: dr.fst, dr.snd)
    | some t =>
      match COLUMN_MAPPINGS ft with
      | none => ([], .error keyErrorMsg)
      | some m =>
        let dr₁ := apply_mappings t m
        match dr₁.snd with
        | .error e => (dr₁.fst, .error e)
        | .ok tab =>
          let dr := processFiles ft rest
          (dr₁.fst ++ dr.fst, dr.snd.map (fun ts => tab :: ts))

/-! ## Merger (src/YNAB.py lines 125-137)

`pd.concat(all_transactions, ignore_index=True)` concatenates the
normalized tables; `pd.to_datetime(..., errors='coerce')` maps each Date
cell to a timestamp or to `NaT` (`none` here; timestamps are modelled as
integers — their internal structure is irrelevant to the sort);
`sort_values(by='Date', ascending=True)` sorts.  `sort_values` is called
with its default algorithm `kind='quicksort'`, which the pandas
documentation does not guarantee to be stable (only `mergesort`/`stable`
are), and default `na_position='last'`.  We therefore model the sort
relationally by its documented contract: the result is *some* permutation
of the input whose Date keys are non-decreasing with all `NaT` keys at the
end. -/

/-- Row of the merged frame, after Date coercion. -/
structure MergedRow where
  date : Option ℤ
  payee : Value
  memo : Value
  inflow : Value
  outflow : Value
  deriving DecidableEq

/-- `pd.concat(..., ignore_index=True)`: columnwise concatenation. -/
def concatTables (ts : List YnabTable) : YnabTable :=
  { date := (ts.map YnabTable.date).flatten
    payee := (ts.map YnabTable.payee).flatten
    memo := (ts.map YnabTable.memo).flatten
    inflow := (ts.map YnabTable.inflow).flatten
    outflow := (ts.map YnabTable.outflow).flatten }

/-- The rows of a frame (positional), with the Date column put through a
datetime coercion `toDt` (`pd.to_datetime(..., errors='coerce')`; `none`
is `NaT`). -/
def toRows (toDt : Value → Option ℤ) (t : YnabTable) : List MergedRow :=
  (List.range t.date.length).map fun i =>
    { date := toDt (t.date.getD i Value.nan)
      payee := t.payee.getD i Value.nan
      memo := t.memo.getD i Value.nan
      inflow := t.inflow.getD i Value.nan
      outflow := t.outflow.getD i Value.nan }

/-- The concatenated, date-coerced rows entering the sort, in upload order. -/
def mergedInput (toDt : Value → Option ℤ) (ts : List YnabTable) : List MergedRow :=
  toRows toDt (concatTables ts)

/-- The sort key order: ascending timestamps, `NaT` after everything
(`na_position='last'`). -/
def dateLeB (a b : Option ℤ) : Bool :=
  match a, b with
  | none, b' => b'.isNone
  | some _, none => true
  | some x, some y => x ≤ y

/-- The sort key order lifted to rows. -/
def rowDateLe (r s : MergedRow) : Prop := dateLeB r.date s.date = true

instance : DecidableRel rowDateLe := fun r s => by unfold rowDateLe; infer_instance

/-- Documented contract of `combined_df.sort_values(by='Date',
ascending=True)` with its default unstable `kind='quicksort'` and default
`na_position='last'`: the output is a permutation of the input, adjacent
rows have non-decreasing Date keys, and `NaT` rows come last.  Which
permutation is produced among rows with equal keys is not specified. -/
def sortValuesSpec (inp out : List MergedRow) : Prop :=
  List.Perm out inp ∧ List.Chain' rowDateLe out

/-- Stability on equal Date keys: any two input rows with the same key
reappear in the output in their input order. -/
def stableOnEqualDates (inp out : List MergedRow) : Prop :=
  ∀ i j : Fin inp.length, i.val < j.val → (inp.get i).date = (inp.get j).date →
    ∃ p q : Fin out.length, p.val < q.val ∧
      out.get p = inp.get i ∧ out.get q = inp.get j

/-! ## Aggregator (src/YNAB.py lines 62-85)

The aggregations run on the merged frame; we state them over its row list.
By construction the Inflow/Outflow columns only hold numeric cells, so the
pandas comparisons and sums below never meet a string. -/

/-- The numeric content of a cell, `none` for NaN and strings. -/
def numPart : Value → Option ℚ
  | .num q => some q
  | _ => none

/-- A pandas column sum (`skipna=True`): sum of the numeric cells. -/
def sumNums (vs : List Value) : ℚ := (vs.filterMap numPart).sum

/-- `calculate_kpis(df)` (lines 62-67): total Inflow and total Outflow. -/
def calculate_kpis (rows : List MergedRow) : ℚ × ℚ :=
  (sumNums (rows.map MergedRow.inflow), sumNums (rows.map MergedRow.outflow))

/-- The boolean mask `df['Outflow'] > 0`: NaN compares false. -/
def valGt0 (v : Value) : Bool :=
  match v with
  | .num q => 0 < q
  | _ => false

/-- `df[df['Outflow'] > 0]`: the rows with positive Outflow. -/
def posOutflowRows (rows : List MergedRow) : List MergedRow :=
  rows.filter (fun r => valGt0 r.outflow)

/-- The numeric value of an Outflow cell (always a `num` by construction). -/
def outVal (v : Value) : ℚ :=
  match v with
  | .num q => q
  | _ => 0

/-- `average_outflow(df)` (lines 82-85): mean of the positive Outflow rows,
`0` for an empty selection. -/
def average_outflow (rows : List MergedRow) : ℚ :=
  let outs := posOutflowRows rows
  if outs.isEmpty then 0
  else sumNums (outs.map MergedRow.outflow) / outs.length

/-- The (Payee, Outflow) pairs of the positive-Outflow rows. -/
def posPairs (rows : List MergedRow) : List (Value × ℚ) :=
  (posOutflowRows rows).map (fun r => (r.payee, outVal r.outflow))

/-- The distinct Payee keys of the positive-Outflow rows; both
`value_counts()` and `groupby` drop NaN keys (`dropna=True` default). -/
def payeeKeys (rows : List MergedRow) : List Value :=
  (((posPairs rows).map Prod.fst).filter (fun v => !(v == Value.nan))).dedup

/-- Occurrences of a payee among the positive-Outflow rows. -/
def payeeCount (rows : List MergedRow) (p : Value) : Nat :=
  ((posPairs rows).map Prod.fst).count p

/-- Summed Outflow of a payee over the positive-Outflow rows (unrounded). -/
def payeeSum (rows : List MergedRow) (p : Value) : ℚ :=
  (((posPairs rows).filter (fun pr => pr.fst == p)).map Prod.snd).sum

/-- Descending order on the carried count. -/
def sndGeN (a b : Value × Nat) : Prop := b.snd ≤ a.snd

instance : DecidableRel sndGeN := fun a b => by unfold sndGeN; infer_instance

/-- Descending order on the carried sum. -/
def sndGeQ (a b : Value × ℚ) : Prop := b.snd ≤ a.snd

instance : DecidableRel sndGeQ := fun a b => by unfold sndGeQ; infer_instance

/-- Documented contract of `value_counts()` (line 72): a series over the
distinct (non-NaN) payee keys carrying their occurrence counts, in
descending count order; the order of keys with equal counts is not
specified. -/
def countsValid (rows : List MergedRow) (full : List (Value × Nat)) : Prop :=
  (full.map Prod.fst).Perm (payeeKeys rows) ∧
  (∀ pc ∈ full, pc.snd = payeeCount rows pc.fst) ∧
  List.Chain' sndGeN full

/-- `top_payees_count(df)` (lines 69-72), relationally: any `.head(5)` prefix
of a series satisfying the `value_counts` contract. -/
def top_payees_count_rel (rows : List MergedRow) (out : List (Value × Nat)) : Prop :=
  ∃ full, countsValid rows full ∧ out = full.take 5

/-- Documented contract of
`groupby('Payee')['Outflow'].sum().sort_values(ascending=False)` (line 77):
a series over the distinct (non-NaN) payee keys carrying their summed
Outflows, in descending sum order; `sort_values` again defaults to the
unstable `kind='quicksort'`, so the order of keys with equal sums is not
specified. -/
def sumsValid (rows : List MergedRow) (full : List (Value × ℚ)) : Prop :=
  (full.map Prod.fst).Perm (payeeKeys rows) ∧
  (∀ ps ∈ full, ps.snd = payeeSum rows ps.fst) ∧
  List.Chain' sndGeQ full

/-- `top_payees_amount(df)` (lines 74-80), relationally: the sorted sums are
rounded to 2 decimals (line 79) and then cut to `.head(5)`. -/
def top_payees_amount_rel (rows : List MergedRow) (out : List (Value × ℚ)) : Prop :=
  ∃ full, sumsValid rows full ∧
    out = (full.map (fun ps => (ps.fst, round2 ps.snd))).take 5

/-- Ascending-name comparison on payee cells (vacuous off strings), used to
state the spec's alphabetical tie-break. -/
def valueNameLeB (a b : Value) : Bool :=
  match a, b with
  | .str s, .str t => s ≤ t
  | _, _ => true

/-- Descending count with alphabetical tie-break, pairwise. -/
def specOrdN (a b : Value × Nat) : Prop :=
  b.snd < a.snd ∨ (a.snd = b.snd ∧ valueNameLeB a.fst b.fst = true)

instance : DecidableRel specOrdN := fun a b => by unfold specOrdN; infer_instance

/-- Descending sum with alphabetical tie-break, pairwise. -/
def specOrdQ (a b : Value × ℚ) : Prop :=
  b.snd < a.snd ∨ (a.snd = b.snd ∧ valueNameLeB a.fst b.fst = true)

instance : DecidableRel specOrdQ := fun a b => by unfold specOrdQ; infer_instance

/-- The spec's ordering for `top_payees_by_count`: strictly descending count,
ties broken by ascending payee name. -/
def alphaTieBreakCount (out : List (Value × Nat)) : Prop :=
  List.Chain' specOrdN out

/-- The spec's ordering for `top_payees_by_amount`. -/
def alphaTieBreakAmount (out : List (Value × ℚ)) : Prop :=
  List.Chain' specOrdQ out

/-! ## Helper lemmas -/

theorem mapCells_cons_ok {f : Value → Except String Value} {v : Value}
    {vs : List Value} {ys : List Value} :
    mapCells f (v :: vs) = .ok ys ↔
      ∃ w ws, f v = .ok w ∧ mapCells f vs = .ok ws ∧ ys = w :: ws := by
  constructor
  · intro h
    unfold mapCells at h
    cases hf : f v with
    | error e => rw [hf] at h; exact absurd h (by simp [Bind.bind, Except.bind])
    | ok w =>
      rw [hf] at h
      cases hm : mapCells f vs with
      | error e => rw [hm] at h; exact absurd h (by simp [Bind.bind, Except.bind])
      | ok ws =>
        rw [hm] at h
        refine ⟨w, ws, rfl, rfl, ?_⟩
        simpa [Bind.bind, Except.bind] using h.symm
  · rintro ⟨w, ws, hf, hm, rfl⟩
    unfold mapCells
    rw [hf, hm]
    rfl

theorem mapCells_ok_length {f : Value → Except String Value} :
    ∀ {xs ys : List Value}, mapCells f xs = .ok ys → ys.length = xs.length := by
  intro xs
  induction xs with
  | nil =>
    intro ys h
    unfold mapCells at h
    cases h
    rfl
  | cons v vs ih =>
    intro ys h
    rcases mapCells_cons_ok.mp h with ⟨w, ws, _, hm, rfl⟩
    simp [ih hm]

theorem mapCells_ok_get {f : Value → Except String Value} :
    ∀ {xs ys : List Value}, mapCells f xs = .ok ys →
      ∀ {i : Nat} {x : Value}, xs.get? i = some x →
        ∃ y, f x = .ok y ∧ ys.get? i = some y := by
  intro xs
  induction xs with
  | nil =>
    intro ys _ i x hx
    simp at hx
  | cons v vs ih =>
    intro ys h i x hx
    rcases mapCells_cons_ok.mp h with ⟨w, ws, hf, hm, rfl⟩
    cases i with
    | zero =>
      cases hx
      exact ⟨w, hf, rfl⟩
    | succ n =>
      exact ih hm hx

theorem mapCells_ok_of_forall {f : Value → Except String Value} :
    ∀ {xs : List Value}, (∀ x ∈ xs, ∃ y, f x = .ok y) →
      ∃ ys, mapCells f xs = .ok ys := by
  intro xs
  induction xs with
  | nil => exact fun _ => ⟨[], rfl⟩
  | cons v vs ih =>
    intro h
    rcases h v (by simp) with ⟨w, hw⟩
    rcases ih (fun x hx => h x (by simp [hx])) with ⟨ws, hws⟩
    exact ⟨w :: ws, mapCells_cons_ok.mpr ⟨w, ws, hw, hws, rfl⟩⟩

theorem alignSeries_length (k : Nat) (v : List Value) :
    (alignSeries k v).length = k := by
  simp [alignSeries]
  omega

theorem stepK_pos {df : RawTable} {k : Nat} (src : Option String) (h : k ≠ 0) :
    stepK df k src = k := by
  unfold stepK
  cases src with
  | none => rfl
  | some c =>
    show (match df.getCol c with
          | none => k
          | some v => if k = 0 ∧ v ≠ [] then v.length else k) = k
    cases hg : df.getCol c with
    | none => rfl
    | some v => simp [h]

/-- Inversion for a successful `apply_mappings`. -/
theorem apply_mappings_ok {df : RawTable} {m : ColumnMapping} {t : YnabTable}
    (h : (apply_mappings df m).snd = .ok t) :
    ∃ infl outf,
      mapCells inflowCell (amountColumn df m) = .ok infl ∧
      mapCells outflowCell (amountColumn df m) = .ok outf ∧
      t = { date := dateColumn df m, payee := payeeColumn df m,
            memo := memoColumn df m, inflow := infl, outflow := outf } := by
  unfold apply_mappings at h
  simp only at h
  cases h1 : mapCells inflowCell (amountColumn df m) with
  | error e => rw [h1] at h; exact absurd h (by simp [Bind.bind, Except.bind])
  | ok infl =>
    rw [h1] at h
    cases h2 : mapCells outflowCell (amountColumn df m) with
    | error e => rw [h2] at h; exact absurd h (by simp [Bind.bind, Except.bind])
    | ok outf =>
      rw [h2] at h
      refine ⟨infl, outf, rfl, rfl, ?_⟩
      simp only [Bind.bind, Except.bind, Pure.pure, Except.pure] at h
      exact (Except.ok.inj h).symm

/-- Rebuilding a column from positional access. -/
theorem map_getD_range {α : Type} (l : List α) (d : α) :
    (List.range l.length).map (fun i => l.getD i d) = l := by
  induction l with
  | nil => rfl
  | cons x xs ih =>
    rw [List.length_cons, List.range_succ_eq_map, List.map_cons, List.map_map]
    have hcomp : ((fun i => (x :: xs).getD i d) ∘ Nat.succ) = (fun i => xs.getD i d) := by
      funext i
      rfl
    rw [hcomp, ih]
    rfl

theorem map_getD_range_of_length {α : Type} {l : List α} {n : Nat} (d : α)
    (h : l.length = n) :
    (List.range n).map (fun i => l.getD i d) = l := by
  subst h
  exact map_getD_range l d

/-- All five output columns of a successful `apply_mappings` have the final
index length. -/
theorem ynab_columns_length {df : RawTable} {m : ColumnMapping} {t : YnabTable}
    (h : (apply_mappings df m).snd = .ok t) :
    t.date.length = kFinal df m ∧ t.payee.length = kFinal df m ∧
    t.memo.length = kFinal df m ∧ t.inflow.length = kFinal df m ∧
    t.outflow.length = kFinal df m := by
  rcases apply_mappings_ok h with ⟨infl, outf, h1, h2, rfl⟩
  refine ⟨?_, ?_, ?_, ?_, ?_⟩
  · exact alignSeries_length _ _
  · exact alignSeries_length _ _
  · exact alignSeries_length _ _
  · rw [mapCells_ok_length h1]; exact alignSeries_length _ _
  · rw [mapCells_ok_length h2]; exact alignSeries_length _ _

/-! ## Concrete data used in witnesses and counterexamples -/

/-- The registry entry for the first format, as a value. -/
def sweMapping : ColumnMapping :=
  { date := some sweDateCol, payee := some swePayeeCol,
    memo := none, amount := some sweAmountCol }

theorem registry_swe : COLUMN_MAPPINGS sweFormat = some sweMapping := by decide

def shop1 : String := "Shop1"

def shop2 : String := "Shop2"

def dayA : String := "2024-01-05"

def dayB : String := "2024-01-03"

def abcStr : String := "abc"

def unknownBank : String := "Unknown Bank"

def fileNameA : String := "a.csv"

def fileNameB : String := "b.csv"

def payeeA : String := "A"

def payeeB : String := "B"

/-! ## C1: the Inflow/Outflow sign split -/

/-- C1: for every normalized row whose source Amount is a numeric value `a`,
the Mapper/Normalizer produces `Inflow = round(a, 2) if a > 0 else 0` and
`Outflow = round(-a, 2) if a < 0 else 0`; both are non-negative and at most
one of them is nonzero. -/
theorem apply_mappings_sign_split (df : RawTable) (m : ColumnMapping)
    (t : YnabTable) (i : Nat) (a : ℚ)
    (h : (apply_mappings df m).snd = .ok t)
    (ha : (amountColumn df m).get? i = some (.num a)) :
    ∃ qi qo,
      t.inflow.get? i = some (.num qi) ∧ t.outflow.get? i = some (.num qo) ∧
      qi = (if 0 < a then round2 a else 0) ∧
      qo = (if a < 0 then round2 (-a) else 0) ∧
      0 ≤ qi ∧ 0 ≤ qo ∧ (qi = 0 ∨ qo = 0) := by
  rcases apply_mappings_ok h with ⟨infl, outf, h1, h2, rfl⟩
  rcases mapCells_ok_get h1 ha with ⟨yi, hyi, hgi⟩
  rcases mapCells_ok_get h2 ha with ⟨yo, hyo, hgo⟩
  unfold inflowCell at hyi
  unfold outflowCell at hyo
  cases hyi
  cases hyo
  refine ⟨_, _, hgi, hgo, rfl, rfl, ?_, ?_, ?_⟩
  · by_cases hp : 0 < a
    · rw [if_pos hp]; exact round2_nonneg (le_of_lt hp)
    · rw [if_neg hp]
  · by_cases hn : a < 0
    · rw [if_pos hn]; exact round2_nonneg (by linarith)
    · rw [if_neg hn]
  · by_cases hp : 0 < a
    · right; rw [if_neg (by linarith : ¬ a < 0)]
    · left; rw [if_neg hp]

def w1Df : RawTable :=
  ⟨[(sweDateCol, [Value.str dayA]), (swePayeeCol, [Value.str shop1]),
    (sweAmountCol, [Value.num (-10)])]⟩

def w1Tab : YnabTable :=
  { date := [Value.str dayA], payee := [Value.str shop1],
    memo := [Value.str emptyStr], inflow := [Value.num 0],
    outflow := [Value.num 10] }

/-- Witness for C1 at the spec's scenario row (Amount = -10). -/
theorem apply_mappings_sign_split_witness :
    ∃ qi qo,
      w1Tab.inflow.get? 0 = some (.num qi) ∧
      w1Tab.outflow.get? 0 = some (.num qo) ∧
      qi = (if 0 < (-10 : ℚ) then round2 (-10) else 0) ∧
      qo = (if (-10 : ℚ) < 0 then round2 (-(-10)) else 0) ∧
      0 ≤ qi ∧ 0 ≤ qo ∧ (qi = 0 ∨ qo = 0) :=
  apply_mappings_sign_split w1Df sweMapping w1Tab 0 (-10)
    (by with_unfolding_all decide) (by with_unfolding_all decide)

/-! ## C10: positive amounts below half a cent vanish -/

/-- C10: for any Amount `a` with `0 < a < 0.005`, the Mapper/Normalizer
produces a row with `Inflow = 0` and `Outflow = 0`: the sign test sees the
unrounded `a > 0`, but the stored value `round(a, 2)` is `0`. -/
theorem small_amount_vanishes (a : ℚ) (ha0 : 0 < a) (ha : a < 1/200)
    (df : RawTable) (m : ColumnMapping) (t : YnabTable) (i : Nat)
    (h : (apply_mappings df m).snd = .ok t)
    (hcell : (amountColumn df m).get? i = some (.num a)) :
    t.inflow.get? i = some (.num 0) ∧ t.outflow.get? i = some (.num 0) := by
  rcases apply_mappings_sign_split df m t i a h hcell with
    ⟨qi, qo, hgi, hgo, hqi, hqo, _, _, _⟩
  constructor
  · rw [hgi, hqi, if_pos ha0, round2_small ha0 ha]
  · rw [hgo, hqo, if_neg (by linarith : ¬ a < 0)]

def w10Df : RawTable :=
  ⟨[(sweDateCol, [Value.str dayA]), (swePayeeCol, [Value.str shop1]),
    (sweAmountCol, [Value.num (1/1000)])]⟩

def w10Tab : YnabTable :=
  { date := [Value.str dayA], payee := [Value.str shop1],
    memo := [Value.str emptyStr], inflow := [Value.num 0],
    outflow := [Value.num 0] }

/-- Witness for C10 at `a = 0.001`. -/
theorem small_amount_vanishes_witness :
    w10Tab.inflow.get? 0 = some (.num 0) ∧
    w10Tab.outflow.get? 0 = some (.num 0) :=
  small_amount_vanishes (1/1000) (by norm_num) (by norm_num)
    w10Df sweMapping w10Tab 0 (by with_unfolding_all decide)
    (by with_unfolding_all decide)

/-! ## C3: row-count preservation -/

/-- Whether a cell is a Python string. -/
def isStr : Value → Bool
  | .str _ => true
  | _ => false

/-- Introduction rule for a successful `apply_mappings`. -/
theorem apply_mappings_ok_intro {df : RawTable} {m : ColumnMapping}
    {infl outf : List Value}
    (h1 : mapCells inflowCell (amountColumn df m) = .ok infl)
    (h2 : mapCells outflowCell (amountColumn df m) = .ok outf) :
    (apply_mappings df m).snd =
      .ok { date := dateColumn df m, payee := payeeColumn df m,
            memo := memoColumn df m, inflow := infl, outflow := outf } := by
  unfold apply_mappings
  rw [h1, h2]
  rfl

/-- The split lambdas only raise on string cells. -/
theorem inflowCell_ok_of_not_str {x : Value} (h : isStr x = false) :
    ∃ y, inflowCell x = .ok y := by
  cases x with
  | num q => exact ⟨_, rfl⟩
  | nan => exact ⟨_, rfl⟩
  | str s => simp [isStr] at h

theorem outflowCell_ok_of_not_str {x : Value} (h : isStr x = false) :
    ∃ y, outflowCell x = .ok y := by
  cases x with
  | num q => exact ⟨_, rfl⟩
  | nan => exact ⟨_, rfl⟩
  | str s => simp [isStr] at h

def c3Df : RawTable :=
  ⟨[(sweDateCol, [Value.str dayA]), (swePayeeCol, [Value.str shop1])]⟩

/-- C3 counterexample: a one-row table whose mapped Amount column
(`Belopp`) is absent.  The loop substitutes the scalar `""`, and the
Inflow split then raises `TypeError` (`"" > 0`), so normalization aborts
with no output table at all — the output row count is not the input row
count 1. -/
theorem apply_mappings_missing_amount_cex :
    c3Df.getCol sweDateCol = some [Value.str dayA] ∧
    (apply_mappings c3Df sweMapping).snd = .error typeErrorMsg ∧
    Diag.missingColumn sweAmountCol ∈ (apply_mappings c3Df sweMapping).fst := by
  refine ⟨by with_unfolding_all decide, by with_unfolding_all decide, ?_⟩
  with_unfolding_all decide

/-- In a table whose columns all have length `n`, any looked-up column has
length `n`. -/
theorem getCol_length {df : RawTable} {n : Nat} {c : String} {v : List Value}
    (hwf : ∀ p ∈ df.cols, p.snd.length = n) (h : df.getCol c = some v) :
    v.length = n := by
  unfold RawTable.getCol at h
  rcases Option.map_eq_some'.mp h with ⟨pr, hfind, rfl⟩
  exact hwf pr (List.mem_of_find?_eq_some hfind)

/-- Starting from an empty index, one assignment leaves the index empty or
makes it adopt the (common) column length `n`. -/
theorem stepK_zero_mem {df : RawTable} {n : Nat}
    (hwf : ∀ p ∈ df.cols, p.snd.length = n) (src : Option String) :
    stepK df 0 src = 0 ∨ stepK df 0 src = n := by
  cases src with
  | none => exact Or.inl rfl
  | some c =>
    cases hg : df.getCol c with
    | none => left; simp [stepK, hg]
    | some v =>
      by_cases hv : v = []
      · left; simp [stepK, hg, hv]
      · right
        simp only [stepK, hg, hv, ne_eq, not_false_eq_true, and_self, if_true]
        exact getCol_length hwf hg

/-- Assigning a mapped column that is present in the table pins the index
length at `n`, whether the frame adopts it now or already adopted it. -/
theorem stepK_hit {df : RawTable} {n k : Nat} {c : String} {v : List Value}
    (hwf : ∀ p ∈ df.cols, p.snd.length = n) (hne : n ≠ 0)
    (hv : df.getCol c = some v) (hk : k = 0 ∨ k = n) :
    stepK df k (some c) = n := by
  have hlen : v.length = n := getCol_length hwf hv
  have hvne : v ≠ [] := by
    intro h
    subst h
    exact hne hlen.symm
  rcases hk with rfl | rfl
  · simp [stepK, hv, hvne, hlen]
  · exact stepK_pos _ hne

/-- C3 amended: the output row count equals the input row count `n` whenever
at least one of the mapped source columns is present in the table and the
resolved Amount cells contain no strings.  A missing Date column only
produces NaN dates (the frame adopts its index from the next mapped column
that is present); missing Payee or Memo columns are filled with empty
strings; neither changes the row count.  The failure modes are exactly: a
mapped Amount column absent (or holding a string cell) while the frame has
at least one row makes the split raise `TypeError` and abort with no output
table; and a table containing none of the mapped source columns produces an
empty 0-row output regardless of `n`. -/
theorem apply_mappings_row_count (df : RawTable) (m : ColumnMapping) (n : Nat)
    (hwf : ∀ p ∈ df.cols, p.snd.length = n)
    (hpresent :
      (∃ c, m.date = some c ∧ (df.getCol c).isSome = true) ∨
      (∃ c, m.payee = some c ∧ (df.getCol c).isSome = true) ∨
      (∃ c, m.memo = some c ∧ (df.getCol c).isSome = true) ∨
      (∃ c, m.amount = some c ∧ (df.getCol c).isSome = true))
    (hnum : ∀ x ∈ amountColumn df m, isStr x = false) :
    ∃ t, (apply_mappings df m).snd = .ok t ∧
      t.date.length = n ∧ t.payee.length = n ∧
      t.memo.length = n ∧ t.inflow.length = n ∧ t.outflow.length = n := by
  have hkF : kFinal df m = n := by
    by_cases hn0 : n = 0
    · subst hn0
      have h1 : kAfterDate df m = 0 := (stepK_zero_mem hwf m.date).elim id id
      have h2 : kAfterPayee df m = 0 := by
        unfold kAfterPayee
        rw [h1]
        exact (stepK_zero_mem hwf m.payee).elim id id
      have h3 : kAfterMemo df m = 0 := by
        unfold kAfterMemo
        rw [h2]
        exact (stepK_zero_mem hwf m.memo).elim id id
      unfold kFinal
      rw [h3]
      exact (stepK_zero_mem hwf m.amount).elim id id
    · have h1 : kAfterDate df m = 0 ∨ kAfterDate df m = n :=
        stepK_zero_mem hwf m.date
      rcases hpresent with ⟨c, hc, hs⟩ | ⟨c, hc, hs⟩ | ⟨c, hc, hs⟩ | ⟨c, hc, hs⟩ <;>
        rcases Option.isSome_iff_exists.mp hs with ⟨v, hv⟩
      · have hd : kAfterDate df m = n := by
          unfold kAfterDate
          rw [hc]
          exact stepK_hit hwf hn0 hv (Or.inl rfl)
        have hp : kAfterPayee df m = n := by
          unfold kAfterPayee
          rw [hd]
          exact stepK_pos _ hn0
        have hm2 : kAfterMemo df m = n := by
          unfold kAfterMemo
          rw [hp]
          exact stepK_pos _ hn0
        unfold kFinal
        rw [hm2]
        exact stepK_pos _ hn0
      · have hp : kAfterPayee df m = n := by
          unfold kAfterPayee
          rw [hc]
          exact stepK_hit hwf hn0 hv h1
        have hm2 : kAfterMemo df m = n := by
          unfold kAfterMemo
          rw [hp]
          exact stepK_pos _ hn0
        unfold kFinal
        rw [hm2]
        exact stepK_pos _ hn0
      · have h2 : kAfterPayee df m = 0 ∨ kAfterPayee df m = n := by
          rcases h1 with h1 | h1
          · unfold kAfterPayee
            rw [h1]
            exact stepK_zero_mem hwf m.payee
          · right
            unfold kAfterPayee
            rw [h1]
            exact stepK_pos _ hn0
        have hm2 : kAfterMemo df m = n := by
          unfold kAfterMemo
          rw [hc]
          exact stepK_hit hwf hn0 hv h2
        unfold kFinal
        rw [hm2]
        exact stepK_pos _ hn0
      · have h2 : kAfterPayee df m = 0 ∨ kAfterPayee df m = n := by
          rcases h1 with h1 | h1
          · unfold kAfterPayee
            rw [h1]
            exact stepK_zero_mem hwf m.payee
          · right
            unfold kAfterPayee
            rw [h1]
            exact stepK_pos _ hn0
        have h3 : kAfterMemo df m = 0 ∨ kAfterMemo df m = n := by
          rcases h2 with h2 | h2
          · unfold kAfterMemo
            rw [h2]
            exact stepK_zero_mem hwf m.memo
          · right
            unfold kAfterMemo
            rw [h2]
            exact stepK_pos _ hn0
        unfold kFinal
        rw [hc]
        exact stepK_hit hwf hn0 hv h3
  rcases mapCells_ok_of_forall
    (fun x hx => inflowCell_ok_of_not_str (hnum x hx)) with ⟨infl, hinfl⟩
  rcases mapCells_ok_of_forall
    (fun x hx => outflowCell_ok_of_not_str (hnum x hx)) with ⟨outf, houtf⟩
  refine ⟨_, apply_mappings_ok_intro hinfl houtf, ?_, ?_, ?_, ?_, ?_⟩
  · rw [← hkF]; exact alignSeries_length _ _
  · rw [← hkF]; exact alignSeries_length _ _
  · rw [← hkF]; exact alignSeries_length _ _
  · rw [mapCells_ok_length hinfl, ← hkF]; exact alignSeries_length _ _
  · rw [mapCells_ok_length houtf, ← hkF]; exact alignSeries_length _ _

/-- A one-row table with the mapped Date column absent but Payee and Amount
present: the row count is still preserved (the Date cells become NaN). -/
def w3Df : RawTable :=
  ⟨[(swePayeeCol, [Value.str shop1]), (sweAmountCol, [Value.num 5])]⟩

/-- Witness for amended C3 at the Date-absent case the claim covers. -/
theorem apply_mappings_row_count_witness :
    ∃ t, (apply_mappings w3Df sweMapping).snd = .ok t ∧
      t.date.length = 1 ∧ t.payee.length = 1 ∧
      t.memo.length = 1 ∧ t.inflow.length = 1 ∧ t.outflow.length = 1 :=
  apply_mappings_row_count w3Df sweMapping 1
    (by with_unfolding_all decide)
    (Or.inr (Or.inl ⟨swePayeeCol, rfl, by with_unfolding_all decide⟩))
    (by with_unfolding_all decide)

/-! ## C8: non-numeric Amount cells -/

def c8Df : RawTable :=
  ⟨[(sweDateCol, [Value.str dayA]), (swePayeeCol, [Value.str shop1]),
    (sweAmountCol, [Value.str abcStr])]⟩

/-- C8 counterexample: a row whose Amount cell holds the non-numeric string
`"abc"`.  Normalization aborts with `TypeError` instead of treating the cell
as 0 and retaining the row. -/
theorem string_amount_aborts_cex :
    (amountColumn c8Df sweMapping).get? 0 = some (Value.str abcStr) ∧
    (apply_mappings c8Df sweMapping).snd = .error typeErrorMsg := by
  constructor
  · with_unfolding_all decide
  · with_unfolding_all decide

/-- C8 amended: a *missing* (NaN) Amount cell is treated as 0 — `NaN > 0`
and `NaN < 0` are both false, so Inflow and Outflow are both `0` and the row
is retained (no diagnostic is emitted for it); but a *string* Amount cell
raises `TypeError` and aborts normalization. -/
theorem nan_amount_zero (df : RawTable) (m : ColumnMapping) (t : YnabTable)
    (i : Nat) (h : (apply_mappings df m).snd = .ok t)
    (hcell : (amountColumn df m).get? i = some Value.nan) :
    t.inflow.get? i = some (.num 0) ∧ t.outflow.get? i = some (.num 0) ∧
    t.inflow.length = (amountColumn df m).length ∧
    t.outflow.length = (amountColumn df m).length := by
  rcases apply_mappings_ok h with ⟨infl, outf, h1, h2, rfl⟩
  rcases mapCells_ok_get h1 hcell with ⟨yi, hyi, hgi⟩
  rcases mapCells_ok_get h2 hcell with ⟨yo, hyo, hgo⟩
  unfold inflowCell at hyi
  unfold outflowCell at hyo
  cases hyi
  cases hyo
  exact ⟨hgi, hgo, mapCells_ok_length h1, mapCells_ok_length h2⟩

def w8Df : RawTable :=
  ⟨[(sweDateCol, [Value.str dayA]), (swePayeeCol, [Value.str shop1]),
    (sweAmountCol, [Value.nan])]⟩

def w8Tab : YnabTable :=
  { date := [Value.str dayA], payee := [Value.str shop1],
    memo := [Value.str emptyStr], inflow := [Value.num 0],
    outflow := [Value.num 0] }

/-- Witness for amended C8 on a one-row table with a NaN Amount. -/
theorem nan_amount_zero_witness :
    w8Tab.inflow.get? 0 = some (.num 0) ∧ w8Tab.outflow.get? 0 = some (.num 0) ∧
    w8Tab.inflow.length = (amountColumn w8Df sweMapping).length ∧
    w8Tab.outflow.length = (amountColumn w8Df sweMapping).length :=
  nan_amount_zero w8Df sweMapping w8Tab 0 (by with_unfolding_all decide)
    (by with_unfolding_all decide)

/-! ## C6 and C7: the batch loop -/

/-- Unfolding equation for `processFiles` on a nonempty batch. -/
theorem processFiles_cons (ft : String) (f : UploadedFile)
    (rest : List UploadedFile) :
    processFiles ft (f :: rest) =
      match parse_transaction_file f ft with
      | none => (parseFailDiag f ft :: (processFiles ft rest).fst,
                 (processFiles ft rest).snd)
      | some t =>
        match COLUMN_MAPPINGS ft with
        | none => ([], .error keyErrorMsg)
        | some m =>
          match (apply_mappings t m).snd with
          | .error e => ((apply_mappings t m).fst, .error e)
          | .ok tab => ((apply_mappings t m).fst ++ (processFiles ft rest).fst,
                        (processFiles ft rest).snd.map (fun ts => tab :: ts)) := by
  rfl

theorem except_map_ok {α β : Type} (f : α → β) (e : Except String α) (b : β) :
    e.map f = .ok b ↔ ∃ a, e = .ok a ∧ b = f a := by
  cases e with
  | error err => simp [Except.map]
  | ok a =>
    simp [Except.map]
    constructor
    · intro h; exact h.symm
    · intro h; exact h.symm

/-- C6: a parse failure of one file does not abort the batch: the failing
file contributes no rows (the merged tables are those of the batch without
it), and — whenever the batch result is produced at all — the failure's
diagnostic is reported. -/
theorem parse_failure_skips_file (ft : String) (pre post : List UploadedFile)
    (bad : UploadedFile) (hbad : parse_transaction_file bad ft = none) :
    (processFiles ft (pre ++ bad :: post)).snd =
      (processFiles ft (pre ++ post)).snd ∧
    (∀ rs, (processFiles ft (pre ++ bad :: post)).snd = .ok rs →
      parseFailDiag bad ft ∈ (processFiles ft (pre ++ bad :: post)).fst) := by
  induction pre with
  | nil =>
    rw [List.nil_append, List.nil_append, processFiles_cons, hbad]
    exact ⟨rfl, fun rs _ => List.mem_cons_self _ _⟩
  | cons f pre ih =>
    rw [List.cons_append, List.cons_append, processFiles_cons, processFiles_cons]
    cases hp : parse_transaction_file f ft with
    | none =>
      dsimp only
      refine ⟨by rw [ih.1], ?_⟩
      intro rs hrs
      exact List.mem_cons_of_mem _ (ih.2 rs hrs)
    | some t =>
      dsimp only
      cases hm : COLUMN_MAPPINGS ft with
      | none =>
        dsimp only
        exact ⟨rfl, fun rs hrs => absurd hrs (by simp)⟩
      | some m =>
        dsimp only
        cases ha : (apply_mappings t m).snd with
        | error e =>
          dsimp only
          exact ⟨rfl, fun rs hrs => absurd hrs (by simp)⟩
        | ok tab =>
          dsimp only
          refine ⟨by rw [ih.1], ?_⟩
          intro rs hrs
          rcases (except_map_ok _ _ _).mp hrs with ⟨rs0, hrs0, _⟩
          exact List.mem_append_right _ (ih.2 rs0 hrs0)

def w6Bad : UploadedFile := { name := fileNameB, readCsv := none, readExcel := none }

def w6GoodDf : RawTable :=
  ⟨[(sweDateCol, [Value.str dayB]), (swePayeeCol, [Value.str shop2]),
    (sweAmountCol, [Value.num 50])]⟩

def w6Good : UploadedFile :=
  { name := fileNameA, readCsv := some w6GoodDf, readExcel := none }

/-- Witness for C6: a batch of one unreadable file followed by one good
file. -/
theorem parse_failure_skips_file_witness :
    (processFiles sweFormat ([] ++ w6Bad :: [w6Good])).snd =
      (processFiles sweFormat ([] ++ [w6Good])).snd ∧
    (∀ rs, (processFiles sweFormat ([] ++ w6Bad :: [w6Good])).snd = .ok rs →
      parseFailDiag w6Bad sweFormat ∈
        (processFiles sweFormat ([] ++ w6Bad :: [w6Good])).fst) :=
  parse_failure_skips_file sweFormat [] [w6Good] w6Bad
    (by with_unfolding_all decide)

/-- C7: for a format name not in the registry every file fails with the
`Unsupported file type` error, and the batch yields no rows and no partial
result. -/
theorem unknown_format_no_rows (ft : String) (files : List UploadedFile)
    (h1 : ft ≠ sweFormat) (h2 : ft ≠ coopFormat) :
    processFiles ft files =
      (files.map (fun _ => Diag.unsupportedFileType), .ok []) := by
  induction files with
  | nil => rfl
  | cons f rest ih =>
    rw [processFiles_cons]
    have hp : parse_transaction_file f ft = none := by
      unfold parse_transaction_file
      rw [if_neg h1, if_neg h2]
    have hd : parseFailDiag f ft = Diag.unsupportedFileType := by
      unfold parseFailDiag
      rw [if_neg (by simp [h1, h2])]
    rw [hp, hd, ih]
    simp

def w7File : UploadedFile :=
  { name := fileNameA, readCsv := some w6GoodDf, readExcel := some w6GoodDf }

def w7Files : List UploadedFile := [w7File]

/-- Witness for C7 at the spec's scenario format name. -/
theorem unknown_format_no_rows_witness :
    processFiles unknownBank w7Files =
      (w7Files.map (fun _ => Diag.unsupportedFileType), .ok []) :=
  unknown_format_no_rows unknownBank w7Files (by decide) (by decide)

/-! ## C9: average outflow -/

/-- C9: `average_outflow` returns the arithmetic mean of the Outflow values
strictly greater than zero (every selected row passes the `> 0` mask, and
the returned value times the selection size is the selection's sum), and
returns 0 when no row has positive Outflow. -/
theorem average_outflow_mean (rows : List MergedRow) :
    (∀ r ∈ posOutflowRows rows, valGt0 r.outflow = true) ∧
    average_outflow rows * ((posOutflowRows rows).length : ℚ) =
      sumNums ((posOutflowRows rows).map MergedRow.outflow) ∧
    (posOutflowRows rows = [] → average_outflow rows = 0) := by
  refine ⟨?_, ?_, ?_⟩
  · intro r hr
    exact (List.mem_filter.mp hr).2
  · simp only [average_outflow]
    cases hpos : posOutflowRows rows with
    | nil => simp [sumNums]
    | cons r rs =>
      have hne : ((r :: rs : List MergedRow)).isEmpty = false := rfl
      rw [hne]
      simp only [Bool.false_eq_true, if_false]
      have hlen : (((r :: rs : List MergedRow)).length : ℚ) ≠ 0 := by
        have : (0:ℚ) < ((r :: rs : List MergedRow)).length := by
          exact_mod_cast Nat.succ_pos rs.length
        linarith
      field_simp
  · intro h
    simp [average_outflow, h]

def w9rows : List MergedRow :=
  [{ date := some 0, payee := Value.str shop1, memo := Value.str emptyStr,
     inflow := Value.num 0, outflow := Value.num 10 },
   { date := some 0, payee := Value.str shop2, memo := Value.str emptyStr,
     inflow := Value.num 0, outflow := Value.num 20 }]

def w9none : List MergedRow :=
  [{ date := some 0, payee := Value.str shop1, memo := Value.str emptyStr,
     inflow := Value.num 50, outflow := Value.num 0 }]

/-- Witness for C9: a positive selection and an empty selection. -/
theorem average_outflow_mean_witness :
    average_outflow w9rows * ((posOutflowRows w9rows).length : ℚ) =
      sumNums ((posOutflowRows w9rows).map MergedRow.outflow) ∧
    average_outflow w9none = 0 :=
  ⟨(average_outflow_mean w9rows).2.1,
   (average_outflow_mean w9none).2.2 (by with_unfolding_all decide)⟩

/-! ## C2: the merge sort -/

theorem dateLeB_trans {a b c : Option ℤ} (h1 : dateLeB a b = true)
    (h2 : dateLeB b c = true) : dateLeB a c = true := by
  cases a <;> cases b <;> cases c <;>
    simp_all [dateLeB, decide_eq_true_eq]
  omega

instance : IsTrans MergedRow rowDateLe :=
  ⟨fun _ _ _ h1 h2 => dateLeB_trans h1 h2⟩

/-- A `NaT` key is never strictly before a parseable key. -/
theorem dateLeB_none_left {b : Option ℤ} (h : dateLeB none b = true) :
    b = none := by
  cases b with
  | none => rfl
  | some x => simp [dateLeB] at h

def c2t1 : YnabTable :=
  { date := [Value.str dayA], payee := [Value.str shop1],
    memo := [Value.str emptyStr], inflow := [Value.num 0],
    outflow := [Value.num 10] }

def c2t2 : YnabTable :=
  { date := [Value.str dayA], payee := [Value.str shop2],
    memo := [Value.str emptyStr], inflow := [Value.num 50],
    outflow := [Value.num 0] }

/-- A datetime coercion for the counterexample: the one date string that
occurs parses; everything else is `NaT`. -/
def c2toDt : Value → Option ℤ :=
  fun v => if v = Value.str dayA then some 0 else none

def c2inp : List MergedRow := mergedInput c2toDt [c2t1, c2t2]

def c2r1 : MergedRow :=
  { date := some 0, payee := Value.str shop1, memo := Value.str emptyStr,
    inflow := Value.num 0, outflow := Value.num 10 }

def c2r2 : MergedRow :=
  { date := some 0, payee := Value.str shop2, memo := Value.str emptyStr,
    inflow := Value.num 50, outflow := Value.num 0 }

def c2out : List MergedRow := [c2r2, c2r1]

theorem c2inp_eq : c2inp = [c2r1, c2r2] := by with_unfolding_all decide

instance (inp out : List MergedRow) : Decidable (stableOnEqualDates inp out) := by
  unfold stableOnEqualDates
  infer_instance

/-- C2 counterexample: two one-row files with the same date.  The reversed
order `[c2r2, c2r1]` satisfies everything `sort_values(by='Date')` with its
default unstable `kind='quicksort'` is documented to guarantee, yet the two
equal-date rows do not keep the relative order they had in the
concatenation: stability is not part of the code's contract. -/
theorem sort_not_stable_cex :
    sortValuesSpec c2inp c2out ∧ ¬ stableOnEqualDates c2inp c2out := by
  refine ⟨⟨?_, ?_⟩, ?_⟩
  · rw [c2inp_eq]
    exact List.Perm.swap c2r1 c2r2 []
  · exact List.Chain.cons (by decide) List.Chain.nil
  · with_unfolding_all decide

/-- C2 amended: any output the merge sort may produce is a permutation of
the concatenation of the input files' rows (in upload order), its Date keys
are non-decreasing with every unparseable (`NaT`) date after all parseable
ones; the relative order of rows with equal (or both-unparseable) dates is
not specified, since the default sort kind `quicksort` is documented as
unstable. -/
theorem merge_sorted_perm (toDt : Value → Option ℤ) (ts : List YnabTable)
    (out : List MergedRow)
    (hsort : sortValuesSpec (mergedInput toDt ts) out) :
    out.Perm (mergedInput toDt ts) ∧
    (∀ i j : Fin out.length, i.val < j.val →
      dateLeB (out.get i).date (out.get j).date = true) ∧
    (∀ i j : Fin out.length, i.val < j.val →
      (out.get i).date = none → (out.get j).date = none) := by
  have hpair : List.Pairwise rowDateLe out :=
    List.chain'_iff_pairwise.mp hsort.2
  have hidx := List.pairwise_iff_get.mp hpair
  refine ⟨hsort.1, fun i j hij => hidx i j hij, fun i j hij hi => ?_⟩
  have := hidx i j hij
  unfold rowDateLe at this
  rw [hi] at this
  exact dateLeB_none_left this

def w2Tab : YnabTable :=
  { date := [Value.str dayB, Value.str dayA],
    payee := [Value.str shop2, Value.str shop1],
    memo := [Value.str emptyStr, Value.str emptyStr],
    inflow := [Value.num 50, Value.num 0],
    outflow := [Value.num 0, Value.num 10] }

def w2toDt : Value → Option ℤ :=
  fun v => if v = Value.str dayB then some 3 else
    if v = Value.str dayA then some 5 else none

def w2r1 : MergedRow :=
  { date := some 3, payee := Value.str shop2, memo := Value.str emptyStr,
    inflow := Value.num 50, outflow := Value.num 0 }

def w2r2 : MergedRow :=
  { date := some 5, payee := Value.str shop1, memo := Value.str emptyStr,
    inflow := Value.num 0, outflow := Value.num 10 }

theorem w2inp_eq : mergedInput w2toDt [w2Tab] = [w2r1, w2r2] := by
  with_unfolding_all decide

/-- Witness for amended C2 on a single two-row table already in date
order. -/
theorem merge_sorted_perm_witness :
    (mergedInput w2toDt [w2Tab]).Perm (mergedInput w2toDt [w2Tab]) ∧
    (∀ i j : Fin (mergedInput w2toDt [w2Tab]).length, i.val < j.val →
      dateLeB ((mergedInput w2toDt [w2Tab]).get i).date
        ((mergedInput w2toDt [w2Tab]).get j).date = true) ∧
    (∀ i j : Fin (mergedInput w2toDt [w2Tab]).length, i.val < j.val →
      ((mergedInput w2toDt [w2Tab]).get i).date = none →
      ((mergedInput w2toDt [w2Tab]).get j).date = none) :=
  merge_sorted_perm w2toDt [w2Tab] (mergedInput w2toDt [w2Tab])
    ⟨List.Perm.refl _, by
      rw [w2inp_eq]
      exact List.Chain.cons (by decide) List.Chain.nil⟩

/-! ## C4: conservation across the split -/

/-- The Inflow value produced from one Amount cell. -/
def inflowContrib : Value → ℚ
  | .num a => if 0 < a then round2 a else 0
  | _ => 0

/-- The Outflow value produced from one Amount cell. -/
def outflowContrib : Value → ℚ
  | .num a => if a < 0 then round2 (-a) else 0
  | _ => 0

/-- Net (Inflow minus Outflow) contribution of one Amount cell. -/
def signedContrib (v : Value) : ℚ := inflowContrib v - outflowContrib v

theorem sumNums_cons_num (q : ℚ) (vs : List Value) :
    sumNums (Value.num q :: vs) = q + sumNums vs := by
  simp [sumNums, numPart, List.filterMap_cons]

theorem mapCells_inflow_sum :
    ∀ {xs ys : List Value}, mapCells inflowCell xs = .ok ys →
      sumNums ys = (xs.map inflowContrib).sum := by
  intro xs
  induction xs with
  | nil =>
    intro ys h
    unfold mapCells at h
    cases h
    rfl
  | cons v vs ih =>
    intro ys h
    rcases mapCells_cons_ok.mp h with ⟨w, ws, hf, hm, rfl⟩
    cases v with
    | num a =>
      unfold inflowCell at hf
      cases hf
      rw [sumNums_cons_num, List.map_cons, List.sum_cons, ih hm]
      rfl
    | nan =>
      unfold inflowCell at hf
      cases hf
      rw [sumNums_cons_num, List.map_cons, List.sum_cons, ih hm]
      simp [inflowContrib]
    | str s =>
      unfold inflowCell at hf
      cases hf

theorem mapCells_outflow_sum :
    ∀ {xs ys : List Value}, mapCells outflowCell xs = .ok ys →
      sumNums ys = (xs.map outflowContrib).sum := by
  intro xs
  induction xs with
  | nil =>
    intro ys h
    unfold mapCells at h
    cases h
    rfl
  | cons v vs ih =>
    intro ys h
    rcases mapCells_cons_ok.mp h with ⟨w, ws, hf, hm, rfl⟩
    cases v with
    | num a =>
      unfold outflowCell at hf
      cases hf
      rw [sumNums_cons_num, List.map_cons, List.sum_cons, ih hm]
      rfl
    | nan =>
      unfold outflowCell at hf
      cases hf
      rw [sumNums_cons_num, List.map_cons, List.sum_cons, ih hm]
      simp [outflowContrib]
    | str s =>
      unfold outflowCell at hf
      cases hf

theorem map_sum_sub (l : List Value) (f g : Value → ℚ) :
    (l.map f).sum - (l.map g).sum = (l.map (fun x => f x - g x)).sum := by
  induction l with
  | nil => simp
  | cons x xs ih =>
    simp only [List.map_cons, List.sum_cons]
    linarith [ih]

/-- Per-table conservation: total Inflow minus total Outflow equals the sum
of the per-cell rounded net contributions of the resolved Amount column. -/
theorem totals_single {df : RawTable} {m : ColumnMapping} {t : YnabTable}
    (h : (apply_mappings df m).snd = .ok t) :
    sumNums t.inflow - sumNums t.outflow =
      ((amountColumn df m).map signedContrib).sum := by
  rcases apply_mappings_ok h with ⟨infl, outf, h1, h2, rfl⟩
  show sumNums infl - sumNums outf = _
  rw [mapCells_inflow_sum h1, mapCells_outflow_sum h2]
  exact map_sum_sub _ _ _

theorem toRows_map_inflow (toDt : Value → Option ℤ) (t : YnabTable)
    (h : t.inflow.length = t.date.length) :
    (toRows toDt t).map MergedRow.inflow = t.inflow := by
  unfold toRows
  rw [List.map_map]
  show (List.range t.date.length).map (fun i => t.inflow.getD i Value.nan) =
    t.inflow
  exact map_getD_range_of_length _ h

theorem toRows_map_outflow (toDt : Value → Option ℤ) (t : YnabTable)
    (h : t.outflow.length = t.date.length) :
    (toRows toDt t).map MergedRow.outflow = t.outflow := by
  unfold toRows
  rw [List.map_map]
  show (List.range t.date.length).map (fun i => t.outflow.getD i Value.nan) =
    t.outflow
  exact map_getD_range_of_length _ h

theorem concat_inflow_length_eq {ts : List YnabTable}
    (h : ∀ t ∈ ts, t.inflow.length = t.date.length) :
    (concatTables ts).inflow.length = (concatTables ts).date.length := by
  induction ts with
  | nil => rfl
  | cons t ts ih =>
    have ht := h t (by simp)
    have ih2 := ih (fun u hu => h u (by simp [hu]))
    simp only [concatTables, List.map_cons, List.flatten_cons,
      List.length_append] at ih2 ⊢
    omega

theorem concat_outflow_length_eq {ts : List YnabTable}
    (h : ∀ t ∈ ts, t.outflow.length = t.date.length) :
    (concatTables ts).outflow.length = (concatTables ts).date.length := by
  induction ts with
  | nil => rfl
  | cons t ts ih =>
    have ht := h t (by simp)
    have ih2 := ih (fun u hu => h u (by simp [hu]))
    simp only [concatTables, List.map_cons, List.flatten_cons,
      List.length_append] at ih2 ⊢
    omega

theorem mergedInput_map_inflow (toDt : Value → Option ℤ) (ts : List YnabTable)
    (h : ∀ t ∈ ts, t.inflow.length = t.date.length) :
    (mergedInput toDt ts).map MergedRow.inflow =
      (ts.map YnabTable.inflow).flatten := by
  unfold mergedInput
  rw [toRows_map_inflow toDt (concatTables ts) (concat_inflow_length_eq h)]
  rfl

theorem mergedInput_map_outflow (toDt : Value → Option ℤ) (ts : List YnabTable)
    (h : ∀ t ∈ ts, t.outflow.length = t.date.length) :
    (mergedInput toDt ts).map MergedRow.outflow =
      (ts.map YnabTable.outflow).flatten := by
  unfold mergedInput
  rw [toRows_map_outflow toDt (concatTables ts) (concat_outflow_length_eq h)]
  rfl

theorem sumNums_flatten (ls : List (List Value)) :
    sumNums ls.flatten = (ls.map sumNums).sum := by
  induction ls with
  | nil => rfl
  | cons l ls ih =>
    simp only [List.flatten_cons, List.map_cons, List.sum_cons]
    rw [← ih]
    simp [sumNums, List.filterMap_append]

theorem calculate_kpis_perm {r1 r2 : List MergedRow} (h : r1.Perm r2) :
    calculate_kpis r1 = calculate_kpis r2 := by
  unfold calculate_kpis sumNums
  rw [((h.map MergedRow.inflow).filterMap numPart).sum_eq,
    ((h.map MergedRow.outflow).filterMap numPart).sum_eq]

theorem forall₂_mem_right {R : RawTable → YnabTable → Prop} :
    ∀ {dfs : List RawTable} {tabs : List YnabTable},
      List.Forall₂ R dfs tabs → ∀ t ∈ tabs, ∃ df, R df t := by
  intro dfs tabs h
  induction h with
  | nil => simp
  | cons h1 h2 ih =>
    intro t ht
    rcases List.mem_cons.mp ht with rfl | ht2
    · exact ⟨_, h1⟩
    · exact ih t ht2

theorem batch_totals (m : ColumnMapping) {dfs : List RawTable}
    {tabs : List YnabTable}
    (h : List.Forall₂ (fun df t => (apply_mappings df m).snd = .ok t) dfs tabs) :
    (tabs.map (fun t => sumNums t.inflow)).sum -
      (tabs.map (fun t => sumNums t.outflow)).sum =
      (dfs.map (fun df => ((amountColumn df m).map signedContrib).sum)).sum := by
  induction h with
  | nil => simp
  | cons hdt hrest ih =>
    simp only [List.map_cons, List.sum_cons]
    have := totals_single hdt
    linarith [ih]

/-- A cell holding an exact multiple of 0.01 contributes its own value. -/
theorem signed_hundredth (z : ℤ) :
    signedContrib (.num ((z : ℚ) / 100)) = (z : ℚ) / 100 := by
  unfold signedContrib inflowContrib outflowContrib
  dsimp only
  rcases lt_trichotomy ((z : ℚ) / 100) 0 with hneg | hzero | hpos
  · rw [if_neg (by linarith), if_pos hneg]
    have : -((z : ℚ) / 100) = (((-z : ℤ) : ℚ)) / 100 := by push_cast; ring
    rw [this, round2_hundredth]
    push_cast
    ring
  · rw [hzero]
    norm_num
  · rw [if_pos hpos, if_neg (by linarith), round2_hundredth]
    ring

theorem sum_signed_eq_sumNums {l : List Value}
    (h : ∀ v ∈ l, ∃ z : ℤ, v = .num ((z : ℚ) / 100)) :
    (l.map signedContrib).sum = sumNums l := by
  induction l with
  | nil => rfl
  | cons v vs ih =>
    rcases h v (by simp) with ⟨z, rfl⟩
    rw [List.map_cons, List.sum_cons, signed_hundredth, sumNums_cons_num,
      ih (fun u hu => h u (by simp [hu]))]

/-- C4 amended: for a batch of tables normalized with one mapping,
`total_inflow - total_outflow` over any valid merge output equals the sum
over all rows of the *rounded* net contribution `(round2 a if a > 0) -
(round2 (-a) if a < 0)`; and when every Amount is an exact multiple of 0.01
this equals the sum of the original signed Amounts. -/
theorem totals_conservation_rounded (m : ColumnMapping)
    (toDt : Value → Option ℤ) (dfs : List RawTable) (tabs : List YnabTable)
    (out : List MergedRow)
    (hall : List.Forall₂ (fun df t => (apply_mappings df m).snd = .ok t) dfs tabs)
    (hsort : sortValuesSpec (mergedInput toDt tabs) out) :
    (calculate_kpis out).fst - (calculate_kpis out).snd =
      (dfs.map (fun df => ((amountColumn df m).map signedContrib).sum)).sum ∧
    ((∀ df ∈ dfs, ∀ v ∈ amountColumn df m, ∃ z : ℤ, v = .num ((z : ℚ) / 100)) →
      (calculate_kpis out).fst - (calculate_kpis out).snd =
        (dfs.map (fun df => sumNums (amountColumn df m))).sum) := by
  have hkpis : calculate_kpis out = calculate_kpis (mergedInput toDt tabs) :=
    calculate_kpis_perm hsort.1
  have hlenI : ∀ t ∈ tabs, t.inflow.length = t.date.length := by
    intro t ht
    rcases forall₂_mem_right hall t ht with ⟨df, hdf⟩
    rcases ynab_columns_length hdf with ⟨hd, _, _, hi, _⟩
    rw [hd, hi]
  have hlenO : ∀ t ∈ tabs, t.outflow.length = t.date.length := by
    intro t ht
    rcases forall₂_mem_right hall t ht with ⟨df, hdf⟩
    rcases ynab_columns_length hdf with ⟨hd, _, _, _, ho⟩
    rw [hd, ho]
  have hfst : (calculate_kpis (mergedInput toDt tabs)).fst =
      (tabs.map (fun t => sumNums t.inflow)).sum := by
    show sumNums ((mergedInput toDt tabs).map MergedRow.inflow) = _
    rw [mergedInput_map_inflow toDt tabs hlenI, sumNums_flatten, List.map_map]
    rfl
  have hsnd : (calculate_kpis (mergedInput toDt tabs)).snd =
      (tabs.map (fun t => sumNums t.outflow)).sum := by
    show sumNums ((mergedInput toDt tabs).map MergedRow.outflow) = _
    rw [mergedInput_map_outflow toDt tabs hlenO, sumNums_flatten, List.map_map]
    rfl
  constructor
  · rw [hkpis, hfst, hsnd]
    exact batch_totals m hall
  · intro hh
    rw [hkpis, hfst, hsnd, batch_totals m hall]
    rw [List.map_congr_left (fun df hdf => sum_signed_eq_sumNums (hh df hdf))]

def c4Df : RawTable :=
  ⟨[(sweDateCol, [Value.str dayA]), (swePayeeCol, [Value.str shop1]),
    (sweAmountCol, [Value.num (1/1000)])]⟩

def c4Tab : YnabTable :=
  { date := [Value.str dayA], payee := [Value.str shop1],
    memo := [Value.str emptyStr], inflow := [Value.num 0],
    outflow := [Value.num 0] }

/-- A datetime coercion that parses nothing (all `NaT`); the totals do not
depend on it. -/
def noDt : Value → Option ℤ := fun _ => none

/-- C4 counterexample: a dataset built from the single parseable numeric
Amount 0.001.  Both Inflow and Outflow round to 0, so
`total_inflow - total_outflow = 0`, but the sum of the original signed
Amounts is 0.001. -/
theorem totals_conservation_cex :
    (apply_mappings c4Df sweMapping).snd = .ok c4Tab ∧
    sortValuesSpec (mergedInput noDt [c4Tab]) (mergedInput noDt [c4Tab]) ∧
    sumNums (amountColumn c4Df sweMapping) = 1/1000 ∧
    (calculate_kpis (mergedInput noDt [c4Tab])).fst -
      (calculate_kpis (mergedInput noDt [c4Tab])).snd = 0 ∧
    (0 : ℚ) ≠ 1/1000 := by
  refine ⟨by with_unfolding_all decide, ⟨List.Perm.refl _, ?_⟩,
    by with_unfolding_all decide, by with_unfolding_all decide,
    by with_unfolding_all decide⟩
  rw [show mergedInput noDt [c4Tab] =
    [{ date := none, payee := Value.str shop1, memo := Value.str emptyStr,
       inflow := Value.num 0, outflow := Value.num 0 }] from
      by with_unfolding_all decide]
  exact List.chain'_singleton _

def w4Df : RawTable :=
  ⟨[(sweDateCol, [Value.str dayA]), (swePayeeCol, [Value.str shop1]),
    (sweAmountCol, [Value.num (-10)])]⟩

def w4Tab : YnabTable :=
  { date := [Value.str dayA], payee := [Value.str shop1],
    memo := [Value.str emptyStr], inflow := [Value.num 0],
    outflow := [Value.num 10] }

/-- Witness for amended C4 on a one-file batch with Amount -10. -/
theorem totals_conservation_rounded_witness :
    (calculate_kpis (mergedInput noDt [w4Tab])).fst -
      (calculate_kpis (mergedInput noDt [w4Tab])).snd =
      ([w4Df].map (fun df =>
        ((amountColumn df sweMapping).map signedContrib).sum)).sum ∧
    ((∀ df ∈ [w4Df], ∀ v ∈ amountColumn df sweMapping,
        ∃ z : ℤ, v = .num ((z : ℚ) / 100)) →
      (calculate_kpis (mergedInput noDt [w4Tab])).fst -
        (calculate_kpis (mergedInput noDt [w4Tab])).snd =
        ([w4Df].map (fun df => sumNums (amountColumn df sweMapping))).sum) :=
  totals_conservation_rounded sweMapping noDt [w4Df] [w4Tab]
    (mergedInput noDt [w4Tab])
    (List.Forall₂.cons (by with_unfolding_all decide) List.Forall₂.nil)
    ⟨List.Perm.refl _, by
      rw [show mergedInput noDt [w4Tab] =
        [{ date := none, payee := Value.str shop1, memo := Value.str emptyStr,
           inflow := Value.num 0, outflow := Value.num 10 }] from
          by with_unfolding_all decide]
      exact List.chain'_singleton _⟩

/-! ## C5: top payees -/

instance : IsTrans (Value × Nat) sndGeN :=
  ⟨fun _ _ _ h1 h2 => le_trans h2 h1⟩

instance : IsTrans (Value × ℚ) sndGeQ :=
  ⟨fun _ _ _ h1 h2 => le_trans h2 h1⟩

theorem chain'_take {α : Type} {R : α → α → Prop} [IsTrans α R] {l : List α}
    (h : List.Chain' R l) (n : Nat) : List.Chain' R (l.take n) := by
  rw [List.chain'_iff_pairwise] at h ⊢
  exact h.sublist (List.take_sublist n l)

/-- A listed payee key comes from a positive-Outflow row. -/
theorem payeeKeys_mem {rows : List MergedRow} {p : Value}
    (h : p ∈ payeeKeys rows) :
    ∃ r ∈ posOutflowRows rows, r.payee = p := by
  unfold payeeKeys at h
  rw [List.mem_dedup] at h
  rcases List.mem_filter.mp h with ⟨hmem, _⟩
  rcases List.mem_map.mp hmem with ⟨pr, hpr, rfl⟩
  unfold posPairs at hpr
  rcases List.mem_map.mp hpr with ⟨r, hr, rfl⟩
  exact ⟨r, hr, rfl⟩

/-- C5 amended: both rankings restrict to rows with Outflow > 0, return at
most 5 entries carrying the correct per-payee count (resp. the per-payee
summed Outflow rounded to 2 decimals), and are ordered by non-increasing
count (resp. sum).  The order of entries with equal counts/sums is not
specified (the code relies on `value_counts` and an unstable
`sort_values`). -/
theorem top_payees_props (rows : List MergedRow) (outC : List (Value × Nat))
    (outA : List (Value × ℚ))
    (hC : top_payees_count_rel rows outC)
    (hA : top_payees_amount_rel rows outA) :
    outC.length ≤ 5 ∧ outA.length ≤ 5 ∧
    (∀ pc ∈ outC, (∃ r ∈ posOutflowRows rows, r.payee = pc.fst) ∧
      pc.snd = payeeCount rows pc.fst) ∧
    (∀ ps ∈ outA, (∃ r ∈ posOutflowRows rows, r.payee = ps.fst) ∧
      ps.snd = round2 (payeeSum rows ps.fst)) ∧
    List.Chain' sndGeN outC ∧ List.Chain' sndGeQ outA := by
  rcases hC with ⟨fullC, ⟨hCperm, hCcount, hCchain⟩, rfl⟩
  rcases hA with ⟨fullA, ⟨hAperm, hAsum, hAchain⟩, rfl⟩
  refine ⟨?_, ?_, ?_, ?_, ?_, ?_⟩
  · rw [List.length_take]; exact min_le_left _ _
  · rw [List.length_take]; exact min_le_left _ _
  · intro pc hpc
    have hmem : pc ∈ fullC := List.take_subset _ _ hpc
    have hkey : pc.fst ∈ payeeKeys rows :=
      hCperm.mem_iff.mp (List.mem_map_of_mem _ hmem)
    exact ⟨payeeKeys_mem hkey, hCcount pc hmem⟩
  · intro ps hps
    have hmem : ps ∈ fullA.map (fun q => (q.fst, round2 q.snd)) :=
      List.take_subset _ _ hps
    rcases List.mem_map.mp hmem with ⟨q, hq, rfl⟩
    have hkey : q.fst ∈ payeeKeys rows :=
      hAperm.mem_iff.mp (List.mem_map_of_mem _ hq)
    refine ⟨payeeKeys_mem hkey, ?_⟩
    show round2 q.snd = round2 (payeeSum rows q.fst)
    rw [hAsum q hq]
  · exact chain'_take hCchain 5
  · apply chain'_take _ 5
    rw [List.chain'_map]
    exact hAchain.imp (fun a b hab => round2_mono hab)

def c5rB : MergedRow :=
  { date := some 0, payee := Value.str payeeB, memo := Value.str emptyStr,
    inflow := Value.num 0, outflow := Value.num 5 }

def c5rA : MergedRow :=
  { date := some 0, payee := Value.str payeeA, memo := Value.str emptyStr,
    inflow := Value.num 0, outflow := Value.num 5 }

def c5rows : List MergedRow := [c5rB, c5rA]

def c5full : List (Value × Nat) :=
  [(Value.str payeeB, 1), (Value.str payeeA, 1)]

/-- C5 counterexample: two payees `"B"`, `"A"` with one positive-Outflow
row each.  The output `[(B,1), (A,1)]` satisfies everything `value_counts`
is documented to guarantee, yet the equal counts are not tie-broken by
ascending payee name (`"A"` would have to come first). -/
theorem top_payees_tiebreak_cex :
    top_payees_count_rel c5rows c5full ∧ ¬ alphaTieBreakCount c5full := by
  constructor
  · refine ⟨c5full, ⟨?_, ?_, ?_⟩, rfl⟩
    · with_unfolding_all decide
    · with_unfolding_all decide
    · exact List.Chain.cons (by decide) List.Chain.nil
  · intro h
    have h2 : List.Chain specOrdN (Value.str payeeB, 1)
      [(Value.str payeeA, 1)] := h
    cases h2 with
    | cons hrel _ => exact absurd hrel (by with_unfolding_all decide)

def w5rows : List MergedRow :=
  [{ date := some 0, payee := Value.str shop1, memo := Value.str emptyStr,
     inflow := Value.num 0, outflow := Value.num 10 }]

def w5outC : List (Value × Nat) := [(Value.str shop1, 1)]

def w5outA : List (Value × ℚ) := [(Value.str shop1, 10)]

def w5fullA : List (Value × ℚ) := [(Value.str shop1, 10)]

/-- Witness for amended C5 on a one-payee dataset. -/
theorem top_payees_props_witness :
    w5outC.length ≤ 5 ∧ w5outA.length ≤ 5 ∧
    (∀ pc ∈ w5outC, (∃ r ∈ posOutflowRows w5rows, r.payee = pc.fst) ∧
      pc.snd = payeeCount w5rows pc.fst) ∧
    (∀ ps ∈ w5outA, (∃ r ∈ posOutflowRows w5rows, r.payee = ps.fst) ∧
      ps.snd = round2 (payeeSum w5rows ps.fst)) ∧
    List.Chain' sndGeN w5outC ∧ List.Chain' sndGeQ w5outA :=
  top_payees_props w5rows w5outC w5outA
    ⟨w5outC, ⟨by with_unfolding_all decide, by with_unfolding_all decide,
      List.chain'_singleton _⟩, by with_unfolding_all decide⟩
    ⟨w5fullA, ⟨by with_unfolding_all decide, by with_unfolding_all decide,
      List.chain'_singleton _⟩, by with_unfolding_all decide⟩

end YNAB
